import Mathlib

/-! Go-traceroute: the probe loop of `main.go`.

A shallow embedding of `src/main.go`.  The program talks to the operating
system, the network and three Go packages (`net`, `time`,
`golang.org/x/net/icmp`); everything those return is collected in an
environment `Env`, and `main` becomes a pure function from an environment to
the list of calls it makes (`Event`) together with the way the process ends
(`Outcome`).
-/

namespace Traceroute

/-! ## Constants -/

/-- The constant `protocolICMP` of `main.go`. -/
def protocolICMP : Nat := 1

/-- The constant `maxHops` of `main.go`. -/
def maxHops : Nat := 64

/-- The constant `timeout = 2 * time.Second` of `main.go`, in nanoseconds. -/
def timeout : Int := 2 * 1000000000

/-- The value of `ipv4.ICMPTypeEchoReply`. -/
def ICMPTypeEchoReply : Nat := 0

/-- The value of `ipv4.ICMPTypeEcho`. -/
def ICMPTypeEcho : Nat := 8

/-- The value of `ipv4.ICMPTypeTimeExceeded`. -/
def ICMPTypeTimeExceeded : Nat := 11

/-! ## Data -/

/-- The dynamic type of an `icmp.MessageBody`, with the fields `main.go` reads
or writes.  `Raw` stands for every body that is neither `*icmp.Echo` nor
`*icmp.TimeExceeded`. -/
inductive MessageBody where
  | Echo (ID Seq : Nat) (Data : List Nat)
  | TimeExceeded (Data : List Nat)
  | Raw (Data : List Nat)
  deriving DecidableEq

/-- An `icmp.Message`: `Typ` is the field `Type` (an `ipv4.ICMPType`). -/
structure Message where
  Typ : Nat
  Code : Nat
  Body : MessageBody
  deriving DecidableEq

/-- Whether a body is a `*icmp.TimeExceeded`. -/
def MessageBody.isTimeExceeded : MessageBody → Bool
  | .TimeExceeded _ => true
  | _ => false

/-- The result of a successful `icmp.ParseMessage`.  The package chooses the
body parser from the message type, so a message of type Time-Exceeded always
carries a `*icmp.TimeExceeded` body; `bodyType` records that. -/
structure Parsed where
  msg : Message
  bodyType : msg.Typ = ICMPTypeTimeExceeded → msg.Body.isTimeExceeded = true

/-- A `net.IPAddr` (also the dynamic type of the peer address that `ReadFrom`
returns on an `ip4:icmp` connection). -/
structure IPAddr where
  IP : List Nat
  Zone : String
  deriving DecidableEq

/-- An operand of `fmt.Println` or `fmt.Printf`. -/
inductive Arg where
  /-- a `string` -/
  | str (s : String)
  /-- an `error`, given by its `Error()` text -/
  | err (e : String)
  /-- an `int` -/
  | int (n : Nat)
  /-- a `net.IP` -/
  | ip (b : List Nat)
  /-- a `time.Duration`, in nanoseconds -/
  | dur (d : Int)
  /-- an `icmp.Type` -/
  | typ (t : Nat)
  deriving DecidableEq

/-- The calls `main` makes, in program order. -/
inductive Event where
  | ResolveIPAddr (network address : String)
  | ListenPacket (network address : String)
  | SetTTL (ttl : Nat)
  | SetDeadline (t : Int)
  | Notify
  | Marshal (m : Message)
  | WriteTo (b : List Nat) (dst : IPAddr)
  | ReadFrom (size : Nat)
  | ParseMessage (proto : Nat) (b : List Nat)
  | LookupAddr (addr : String)
  /-- the arm `case <-interrupt` of the `select` was taken -/
  | RecvInterrupt
  | Println (args : List Arg)
  | Printf (format : String) (args : List Arg)
  | Close
  deriving DecidableEq

/-- A run-time panic of the Go runtime. -/
inductive Panic where
  /-- a failed type assertion `x.(T)` -/
  | interfaceConversion
  /-- `s[index]` with `len(s) = len` and `index >= len` -/
  | indexOutOfRange (index len : Nat)
  deriving DecidableEq

/-- How a function body stops. -/
inductive Outcome where
  /-- a `return`, or the end of the body -/
  | returned
  /-- `os.Exit(code)` -/
  | exited (code : Nat)
  | panicked (p : Panic)
  deriving DecidableEq

/-- How one pass through the body of the `for` loop ends: with the next value
of `ttl` (`next`, carrying whether a signal is waiting in the channel), or by
leaving `main`. -/
inductive Flow where
  | next (pending : Bool)
  | stop (o : Outcome)
  deriving DecidableEq

/-- Everything the program receives from outside.  Calls made once per loop
iteration are indexed by the `ttl` of that iteration.

The channel `interrupt` has capacity one.  A signal can be delivered in the
gap before the iteration for `ttl` begins (`sigBefore ttl`: after the previous
iteration has ended, or after `signal.Notify` for the first), or while that
iteration runs, before it reaches its `select` or its `continue`
(`sigDuring ttl`). -/
structure Env where
  /-- the value of `os.Args` -/
  Args : List String
  /-- the function `net.ResolveIPAddr("ip", _)` -/
  ResolveIPAddr : String → Except String IPAddr
  /-- the error of `icmp.ListenPacket("ip4:icmp", "0.0.0.0")`, if any -/
  ListenPacket : Option String
  /-- the value of `time.Now()` at line 45 -/
  now0 : Int
  /-- the value of `os.Getpid()` -/
  Getpid : Nat
  /-- the method `msg.Marshal(nil)` -/
  Marshal : Message → Except String (List Nat)
  /-- the value of `time.Now()` at line 73 -/
  start : Nat → Int
  /-- the error of `conn.WriteTo`, if any -/
  WriteTo : Nat → Option String
  /-- the result of `conn.ReadFrom(reply)`: the bytes `reply[:n]` and the
  peer address, or an error -/
  ReadFrom : Nat → Except String (List Nat × IPAddr)
  /-- the clock read by `time.Since(start)` at line 86 -/
  now : Nat → Int
  /-- the function `icmp.ParseMessage(protocolICMP, _)` -/
  ParseMessage : List Nat → Except String Parsed
  /-- the function `net.LookupAddr` -/
  LookupAddr : String → Except String (List String)
  sigBefore : Nat → Bool
  sigDuring : Nat → Bool
  /-- the method `String` of `net.IPAddr` -/
  addrString : IPAddr → String
  /-- the method `String` of `net.IP` -/
  ipString : List Nat → String
  /-- the method `String` of `time.Duration` -/
  durString : Int → String
  /-- the method `String` of `ipv4.ICMPType` -/
  typString : Nat → String

/-! ## The program -/

/-- The message built at lines 57-65. -/
def echoRequest (pid ttl : Nat) : Message :=
  { Typ := ICMPTypeEcho
    Code := 0
    Body := .Echo (pid &&& 0xffff) ttl [] }

/-- Lines 111-117: the non-blocking `select` on the channel `interrupt`. -/
def poll (env : Env) (ttl : Nat) (pending : Bool) : List Event × Flow :=
  if pending || env.sigDuring ttl then
    ([.RecvInterrupt, .Println [.str "Traceroute interrupted."]], .stop .returned)
  else
    ([], .next false)

/-- Lines 94-117: the `switch` on the type of the parsed reply, followed by
the `select` when the `switch` falls through. -/
def classify (env : Env) (destIPAddr : IPAddr) (ttl : Nat) (pending : Bool)
    (pkt : Message) (duration : Int) : List Event × Flow :=
  if pkt.Typ = ICMPTypeTimeExceeded then
    match pkt.Body with
    | .TimeExceeded Data =>
      let hopAddr := Data
      let out := [Event.Printf "%d: %s (%s) %v\n" [.int ttl, .ip hopAddr, .ip hopAddr, .dur duration]]
      let r := poll env ttl pending
      (out ++ r.1, r.2)
    | _ => ([], .stop (.panicked .interfaceConversion))
  else if pkt.Typ = ICMPTypeEchoReply then
    let lookup := [Event.LookupAddr (env.addrString destIPAddr)]
    let destName :=
      match env.LookupAddr (env.addrString destIPAddr) with
      | .error _ => [env.addrString destIPAddr]
      | .ok names => names
    match destName with
    | name :: _ =>
      (lookup ++ [.Printf "%d: %s %v\n" [.int ttl, .str name, .dur duration]], .stop .returned)
    | [] => (lookup, .stop (.panicked (.indexOutOfRange 0 0)))
  else
    let out := [Event.Printf "%d: Unexpected ICMP message type: %v\n" [.int ttl, .typ pkt.Typ]]
    let r := poll env ttl pending
    (out ++ r.1, r.2)

/-- Lines 53-117: the body of the `for` loop for one value of `ttl`.
`pending` tells whether a signal is waiting in the channel when the body
starts. -/
def iteration (env : Env) (destIPAddr : IPAddr) (ttl : Nat) (pending : Bool) :
    List Event × Flow :=
  let msg := echoRequest env.Getpid ttl
  let built := [Event.SetTTL ttl, .Marshal msg]
  match env.Marshal msg with
  | .error err =>
    (built ++ [.Println [.str "Error marshaling ICMP message:", .err err]], .stop (.exited 1))
  | .ok msgBytes =>
    let start := env.start ttl
    let sent := built ++ [.WriteTo msgBytes destIPAddr]
    match env.WriteTo ttl with
    | some err =>
      (sent ++ [.Println [.str "Error sending ICMP message:", .err err]],
        .next (pending || env.sigDuring ttl))
    | none =>
      let received := sent ++ [.ReadFrom 1500]
      match env.ReadFrom ttl with
      | .error err =>
        (received ++ [.Println [.str "Error receiving ICMP reply:", .err err]],
          .next (pending || env.sigDuring ttl))
      | .ok (reply, _) =>
        let duration := env.now ttl - start
        let parsed := received ++ [.ParseMessage protocolICMP reply]
        match env.ParseMessage reply with
        | .error err =>
          (parsed ++ [.Println [.str "Error parsing ICMP reply:", .err err]],
            .next (pending || env.sigDuring ttl))
        | .ok pkt =>
          let r := classify env destIPAddr ttl pending pkt.msg duration
          (parsed ++ r.1, r.2)

/-- Lines 52-121: `for ttl := 1; ttl <= maxHops; ttl++` and the notice after
it.  The first argument counts the iterations still to run, so that the guard
`ttl <= maxHops` holds exactly while it is positive; `main` starts the loop
with `maxHops` iterations to run and `ttl = 1`. -/
def probeLoop (env : Env) (destIPAddr : IPAddr) : Nat → Nat → Bool → List Event × Outcome
  | 0, _, _ => ([.Println [.str "Max hops reached."]], .returned)
  | n + 1, ttl, pending =>
    match iteration env destIPAddr ttl (pending || env.sigBefore ttl) with
    | (evs, .stop o) => (evs, o)
    | (evs, .next p) =>
      let r := probeLoop env destIPAddr n (ttl + 1) p
      (evs ++ r.1, r.2)

/-- A finished run of the process. -/
structure Run where
  trace : List Event
  outcome : Outcome
  deriving DecidableEq

/-- The function `main`.  The deferred `conn.Close()` runs when `main` returns
or panics; `os.Exit` ends the process without running deferred calls. -/
def main (env : Env) : Run :=
  if env.Args.length ≠ 2 then
    ⟨[.Println [.str "Usage: go run main.go <destination>"]], .exited 1⟩
  else
    let destAddr := env.Args.getD 1 ""
    let resolved := [Event.ResolveIPAddr "ip" destAddr]
    match env.ResolveIPAddr destAddr with
    | .error err =>
      ⟨resolved ++ [.Println [.str "Error resolving destination IP:", .err err]], .exited 1⟩
    | .ok destIPAddr =>
      let listened := resolved ++ [.ListenPacket "ip4:icmp" "0.0.0.0"]
      match env.ListenPacket with
      | some err =>
        ⟨listened ++ [.Println [.str "Error creating ICMP socket:", .err err]], .exited 1⟩
      | none =>
        let setup := listened ++ [.SetTTL maxHops, .SetDeadline (env.now0 + timeout), .Notify]
        let r := probeLoop env destIPAddr maxHops 1 false
        match r.2 with
        | .exited code => ⟨setup ++ r.1, .exited code⟩
        | o => ⟨setup ++ r.1 ++ [.Close], o⟩

/-- The exit status of the process. -/
def exitCode : Outcome → Nat
  | .returned => 0
  | .exited code => code
  | .panicked _ => 2

/-! ## Standard output -/

/-- The text of one operand. -/
def Arg.text (env : Env) : Arg → String
  | .str s => s
  | .err e => e
  | .int n => toString n
  | .ip b => env.ipString b
  | .dur d => env.durString d
  | .typ t => env.typString t

/-- The function `fmt.Sprintf` on the verbs `main.go` uses (`%d`, `%s`, `%v`):
each verb is replaced by the text of the next operand. -/
def sprintf : List Char → List String → List Char
  | '%' :: _ :: cs, a :: as => a.data ++ sprintf cs as
  | c :: cs, as => c :: sprintf cs as
  | [], _ => []

/-- The text an event writes to standard output. -/
def Event.text (env : Env) : Event → Option String
  | .Println args => some (" ".intercalate (args.map (Arg.text env)) ++ "\n")
  | .Printf format args => some ⟨sprintf format.data (args.map (Arg.text env))⟩
  | _ => none


/-! ## Observations on traces -/

/-- The notice printed at line 120. -/
def hopLimitNotice : Event := .Println [.str "Max hops reached."]

/-- The notice printed at line 114. -/
def interruptNotice : Event := .Println [.str "Traceroute interrupted."]

/-- A probe being sent: a call of `conn.WriteTo`. -/
def isWriteTo : Event → Bool
  | .WriteTo _ _ => true
  | _ => false

/-- The line printed at line 98 for hop `k`. -/
def isHopLine (k : Nat) : Event → Bool
  | .Printf format (.int t :: _) => format == "%d: %s (%s) %v\n" && t == k
  | _ => false

/-- The line printed at line 105 for hop `k`. -/
def isFinalLine (k : Nat) : Event → Bool
  | .Printf format (.int t :: _) => format == "%d: %s %v\n" && t == k
  | _ => false

/-- What every event of the iteration for `ttl` satisfies, the first two
(`SetTTL`, `Marshal`) apart. -/
def bodyEvent (ttl : Nat) (e : Event) : Prop :=
  (∀ v, e ≠ .SetTTL v) ∧ (∀ m, e ≠ .Marshal m) ∧ e ≠ hopLimitNotice ∧ e ≠ .Close ∧
    ∀ k, k ≠ ttl → isHopLine k e = false

/-- The name printed for the destination when the reverse lookup fails or
returns at least one name. -/
def destName (env : Env) (dest : IPAddr) : Option String :=
  match env.LookupAddr (env.addrString dest) with
  | .error _ => some (env.addrString dest)
  | .ok names => names.head?

/-- The calls `main` makes between resolving the destination and entering the
loop, when the socket could be opened. -/
def preamble (env : Env) : List Event :=
  [.ResolveIPAddr "ip" (env.Args.getD 1 ""), .ListenPacket "ip4:icmp" "0.0.0.0",
    .SetTTL maxHops, .SetDeadline (env.now0 + timeout), .Notify]

/-- The text all of a trace writes to standard output, line by line. -/
def stdout (env : Env) (t : List Event) : List String :=
  t.filterMap (Event.text env)

/-! ## Concrete environments

A host `192.168.1.2` traces the route to `192.0.2.7`, three hops away, as
process 70000 (so the identifier is `70000 & 0xffff = 4464`). -/

/-- The destination address. -/
def destination : IPAddr := ⟨[192, 0, 2, 7], ""⟩

/-- The wire form of an Echo message without payload: type, code, checksum,
identifier, sequence number. -/
def echoBytes (typ ID Seq : Nat) : List Nat :=
  let s := typ * 256 + ID + Seq
  let c := 65535 - (s % 65536 + s / 65536)
  [typ, 0, c / 256, c % 256, ID / 256, ID % 256, Seq / 256, Seq % 256]

/-- The probe with sequence number `seq`, as sent. -/
def probe (seq : Nat) : List Nat := echoBytes 8 4464 seq

/-- A Time-Exceeded message quoting the probe with sequence number `seq`: the
ICMP header, then the IP header of the probe and its first eight bytes. -/
def expired (seq : Nat) : List Nat :=
  [11, 0, 244, 255, 0, 0, 0, 0] ++
    [69, 0, 0, 28, 0, 0, 0, 0, 1, 1, 54, 48, 192, 168, 1, 2, 192, 0, 2, 7] ++ probe seq

/-- What `Message.Marshal` returns for an Echo message without payload. -/
def marshalEcho (m : Message) : Except String (List Nat) :=
  match m.Body with
  | .Echo ID Seq [] => .ok (echoBytes m.Typ ID Seq)
  | _ => .error "unsupported body"

/-- What `icmp.ParseMessage` returns on Time-Exceeded and Echo-Reply
messages: the type is the first byte; a Time-Exceeded body holds the bytes
after the eight-byte header. -/
def parseReply : List Nat → Except String Parsed
  | 11 :: code :: _ :: _ :: _ :: _ :: _ :: _ :: Data =>
    .ok ⟨⟨11, code, .TimeExceeded Data⟩, fun _ => rfl⟩
  | 0 :: code :: _ :: _ :: a :: b :: c :: d :: Data =>
    .ok ⟨⟨0, code, .Echo (a * 256 + b) (c * 256 + d) Data⟩, fun h => by cases h⟩
  | _ => .error "message too short"

/-- Two lower-case hexadecimal digits. -/
def hexByte (n : Nat) : List Char :=
  (Nat.toDigits 16 (n / 16 % 16)) ++ (Nat.toDigits 16 (n % 16))

/-- The method `String` of `net.IP` on values that are not 16 bytes long:
dotted decimal for four bytes, `<nil>` for none, and otherwise a question mark
followed by the bytes in hexadecimal. -/
def ipText : List Nat → String
  | [] => "<nil>"
  | [a, b, c, d] => ".".intercalate ([a, b, c, d].map toString)
  | bs => ⟨'?' :: bs.flatMap hexByte⟩

/-- The method `String` of `time.Duration` on durations from 1ns to 999ns. -/
def durText (d : Int) : String := toString d ++ "ns"

/-- The run in which every probe is sent and answered: hops `10.0.0.1` and
`10.0.1.1` answer the first two probes with Time-Exceeded, the destination
answers the third with an Echo-Reply, and each answer takes 750ns. -/
def envPath : Env where
  Args := ["traceroute", "192.0.2.7"]
  ResolveIPAddr := fun _ => .ok destination
  ListenPacket := none
  now0 := 0
  Getpid := 70000
  Marshal := marshalEcho
  start := fun ttl => 1000 * ttl
  WriteTo := fun _ => none
  ReadFrom := fun ttl =>
    if ttl = 1 then .ok (expired 1, ⟨[10, 0, 0, 1], ""⟩)
    else if ttl = 2 then .ok (expired 2, ⟨[10, 0, 1, 1], ""⟩)
    else if ttl = 3 then .ok (echoBytes 0 4464 3, destination)
    else .error "i/o timeout"
  now := fun ttl => 1000 * ttl + 750
  ParseMessage := parseReply
  LookupAddr := fun _ => .ok ["host.example."]
  sigBefore := fun _ => false
  sigDuring := fun _ => false
  addrString := fun a => ipText a.IP
  ipString := ipText
  durString := durText
  typString := fun t => if t = 3 then "destination unreachable" else "<nil>"

/-- The destination is one hop away and answers the first probe with an
Echo-Reply; the reverse lookup of its address succeeds with no name. -/
def envEmptyLookup : Env :=
  { envPath with
    ReadFrom := fun ttl =>
      if ttl = 1 then .ok (echoBytes 0 4464 1, destination) else .error "i/o timeout"
    LookupAddr := fun _ => .ok [] }

/-- As `envPath`, but `Marshal` fails. -/
def envMarshalFails : Env := { envPath with Marshal := fun _ => .error "invalid protocol" }

/-- As `envPath`, but a signal is waiting when the first iteration starts and
the first send fails. -/
def envSendFails : Env :=
  { envPath with
    sigBefore := fun ttl => ttl == 1
    WriteTo := fun ttl => if ttl = 1 then some "sendto: network is unreachable" else none }

/-- As `envPath`, but a signal is delivered after the first iteration has
ended and before the second begins. -/
def envSignalBetween : Env := { envPath with sigBefore := fun ttl => ttl == 2 }

/-- As `envPath`, but no probe is ever answered. -/
def envSilent : Env := { envPath with ReadFrom := fun _ => .error "i/o timeout" }

/-! ## The loop body, path by path -/

theorem iteration_marshal_error (env : Env) (dest : IPAddr) (ttl : Nat) (p : Bool) (err : String)
    (hm : env.Marshal (echoRequest env.Getpid ttl) = .error err) :
    iteration env dest ttl p =
      ([.SetTTL ttl, .Marshal (echoRequest env.Getpid ttl),
        .Println [.str "Error marshaling ICMP message:", .err err]], .stop (.exited 1)) := by
  simp [iteration, hm]

theorem iteration_send_error (env : Env) (dest : IPAddr) (ttl : Nat) (p : Bool)
    (b : List Nat) (err : String)
    (hm : env.Marshal (echoRequest env.Getpid ttl) = .ok b)
    (hs : env.WriteTo ttl = some err) :
    iteration env dest ttl p =
      ([.SetTTL ttl, .Marshal (echoRequest env.Getpid ttl), .WriteTo b dest,
        .Println [.str "Error sending ICMP message:", .err err]],
       .next (p || env.sigDuring ttl)) := by
  simp [iteration, hm, hs]

theorem iteration_receive_error (env : Env) (dest : IPAddr) (ttl : Nat) (p : Bool)
    (b : List Nat) (err : String)
    (hm : env.Marshal (echoRequest env.Getpid ttl) = .ok b)
    (hs : env.WriteTo ttl = none)
    (hr : env.ReadFrom ttl = .error err) :
    iteration env dest ttl p =
      ([.SetTTL ttl, .Marshal (echoRequest env.Getpid ttl), .WriteTo b dest, .ReadFrom 1500,
        .Println [.str "Error receiving ICMP reply:", .err err]],
       .next (p || env.sigDuring ttl)) := by
  simp [iteration, hm, hs, hr]

theorem iteration_parse_error (env : Env) (dest : IPAddr) (ttl : Nat) (p : Bool)
    (b reply : List Nat) (peer : IPAddr) (err : String)
    (hm : env.Marshal (echoRequest env.Getpid ttl) = .ok b)
    (hs : env.WriteTo ttl = none)
    (hr : env.ReadFrom ttl = .ok (reply, peer))
    (hp : env.ParseMessage reply = .error err) :
    iteration env dest ttl p =
      ([.SetTTL ttl, .Marshal (echoRequest env.Getpid ttl), .WriteTo b dest, .ReadFrom 1500,
        .ParseMessage protocolICMP reply,
        .Println [.str "Error parsing ICMP reply:", .err err]],
       .next (p || env.sigDuring ttl)) := by
  simp [iteration, hm, hs, hr, hp]

theorem iteration_parsed (env : Env) (dest : IPAddr) (ttl : Nat) (p : Bool)
    (b reply : List Nat) (peer : IPAddr) (pkt : Parsed)
    (hm : env.Marshal (echoRequest env.Getpid ttl) = .ok b)
    (hs : env.WriteTo ttl = none)
    (hr : env.ReadFrom ttl = .ok (reply, peer))
    (hp : env.ParseMessage reply = .ok pkt) :
    iteration env dest ttl p =
      ([.SetTTL ttl, .Marshal (echoRequest env.Getpid ttl), .WriteTo b dest, .ReadFrom 1500,
        .ParseMessage protocolICMP reply]
          ++ (classify env dest ttl p pkt.msg (env.now ttl - env.start ttl)).1,
       (classify env dest ttl p pkt.msg (env.now ttl - env.start ttl)).2) := by
  simp [iteration, hm, hs, hr, hp]

theorem classify_timeExceeded (env : Env) (dest : IPAddr) (ttl : Nat) (p : Bool)
    (pkt : Parsed) (d : Int) (ht : pkt.msg.Typ = ICMPTypeTimeExceeded) :
    ∃ Data, pkt.msg.Body = .TimeExceeded Data ∧
      classify env dest ttl p pkt.msg d =
        (.Printf "%d: %s (%s) %v\n" [.int ttl, .ip Data, .ip Data, .dur d]
            :: (poll env ttl p).1, (poll env ttl p).2) := by
  have hb := pkt.bodyType ht
  cases hbody : pkt.msg.Body with
  | TimeExceeded Data => exact ⟨Data, rfl, by simp [classify, ht, hbody]⟩
  | Echo a b c => simp [hbody, MessageBody.isTimeExceeded] at hb
  | Raw a => simp [hbody, MessageBody.isTimeExceeded] at hb

theorem classify_other (env : Env) (dest : IPAddr) (ttl : Nat) (p : Bool)
    (pkt : Message) (d : Int) (ht : pkt.Typ ≠ ICMPTypeTimeExceeded)
    (he : pkt.Typ ≠ ICMPTypeEchoReply) :
    classify env dest ttl p pkt d =
      (.Printf "%d: Unexpected ICMP message type: %v\n" [.int ttl, .typ pkt.Typ]
          :: (poll env ttl p).1, (poll env ttl p).2) := by
  simp [classify, ht, he]

theorem probeLoop_succ (env : Env) (dest : IPAddr) (n ttl : Nat) (p : Bool) :
    probeLoop env dest (n + 1) ttl p =
      match iteration env dest ttl (p || env.sigBefore ttl) with
      | (evs, .stop o) => (evs, o)
      | (evs, .next q) =>
        (evs ++ (probeLoop env dest n (ttl + 1) q).1, (probeLoop env dest n (ttl + 1) q).2) := by
  rw [probeLoop]

theorem probeLoop_next (env : Env) (dest : IPAddr) (n ttl : Nat) (p q : Bool) (evs : List Event)
    (h : iteration env dest ttl (p || env.sigBefore ttl) = (evs, .next q)) :
    probeLoop env dest (n + 1) ttl p =
      (evs ++ (probeLoop env dest n (ttl + 1) q).1, (probeLoop env dest n (ttl + 1) q).2) := by
  rw [probeLoop_succ, h]

theorem probeLoop_stop (env : Env) (dest : IPAddr) (n ttl : Nat) (p : Bool) (o : Outcome)
    (evs : List Event)
    (h : iteration env dest ttl (p || env.sigBefore ttl) = (evs, .stop o)) :
    probeLoop env dest (n + 1) ttl p = (evs, o) := by
  rw [probeLoop_succ, h]



theorem poll_shape (env : Env) (ttl : Nat) (p : Bool) :
    (poll env ttl p).1.countP isWriteTo = 0 ∧ ∀ e ∈ (poll env ttl p).1, bodyEvent ttl e := by
  unfold poll
  split <;> simp [isWriteTo, bodyEvent, hopLimitNotice, isHopLine]

theorem classify_shape (env : Env) (dest : IPAddr) (ttl : Nat) (p : Bool) (pkt : Message)
    (d : Int) :
    (classify env dest ttl p pkt d).1.countP isWriteTo = 0 ∧
      ∀ e ∈ (classify env dest ttl p pkt d).1, bodyEvent ttl e := by
  have hp := poll_shape env ttl p
  have hk : ∀ k : Nat, ¬k = ttl → ¬ttl = k := fun k hk h => hk h.symm
  unfold classify
  by_cases ht : pkt.Typ = ICMPTypeTimeExceeded
  · rw [if_pos ht]
    cases pkt.Body <;>
      simp [isWriteTo, bodyEvent, hopLimitNotice, isHopLine, List.countP_cons, hp.1]
    exact ⟨hk, hp.2⟩
  · rw [if_neg ht]
    by_cases he : pkt.Typ = ICMPTypeEchoReply
    · rw [if_pos he]
      rcases env.LookupAddr (env.addrString dest) with err | names
      · simp [isWriteTo, bodyEvent, hopLimitNotice, isHopLine, List.countP_cons]
      · cases names <;>
          simp [isWriteTo, bodyEvent, hopLimitNotice, isHopLine, List.countP_cons]
    · rw [if_neg he]
      simp [isWriteTo, bodyEvent, hopLimitNotice, isHopLine, List.countP_cons, hp.1]
      exact hp.2

theorem iteration_shape (env : Env) (dest : IPAddr) (ttl : Nat) (p : Bool) :
    ∃ rest, (iteration env dest ttl p).1 =
        .SetTTL ttl :: .Marshal (echoRequest env.Getpid ttl) :: rest ∧
      rest.countP isWriteTo ≤ 1 ∧ ∀ e ∈ rest, bodyEvent ttl e := by
  rcases hm : env.Marshal (echoRequest env.Getpid ttl) with err | b
  · rw [iteration_marshal_error _ _ _ _ _ hm]
    simp [isWriteTo, bodyEvent, hopLimitNotice, isHopLine]
  · rcases hs : env.WriteTo ttl with _ | err
    · rcases hr : env.ReadFrom ttl with err | ⟨reply, peer⟩
      · rw [iteration_receive_error _ _ _ _ _ _ hm hs hr]
        simp [isWriteTo, bodyEvent, hopLimitNotice, isHopLine, List.countP_cons]
      · rcases hp : env.ParseMessage reply with err | pkt
        · rw [iteration_parse_error _ _ _ _ _ _ _ _ hm hs hr hp]
          simp [isWriteTo, bodyEvent, hopLimitNotice, isHopLine, List.countP_cons]
        · rw [iteration_parsed _ _ _ _ _ _ _ _ hm hs hr hp]
          have hc := classify_shape env dest ttl p pkt.msg (env.now ttl - env.start ttl)
          simp [isWriteTo, bodyEvent, hopLimitNotice, isHopLine, List.countP_cons, hc.1]
          exact hc.2
    · rw [iteration_send_error _ _ _ _ _ _ hm hs]
      simp [isWriteTo, bodyEvent, hopLimitNotice, isHopLine, List.countP_cons]


/-! ## The loop as a whole -/

theorem probeLoop_zero (env : Env) (dest : IPAddr) (ttl : Nat) (p : Bool) :
    probeLoop env dest 0 ttl p = ([hopLimitNotice], .returned) := rfl

theorem probeLoop_head (env : Env) (dest : IPAddr) (n ttl : Nat) (p : Bool) :
    ∃ rest, (probeLoop env dest (n + 1) ttl p).1 =
      .SetTTL ttl :: .Marshal (echoRequest env.Getpid ttl) :: rest := by
  obtain ⟨rest, h, -⟩ := iteration_shape env dest ttl (p || env.sigBefore ttl)
  rw [probeLoop_succ]
  rcases hi : iteration env dest ttl (p || env.sigBefore ttl) with ⟨evs, flow⟩
  rw [hi] at h
  simp only at h
  subst h
  cases flow <;> simp

/-- Every event of the loop is the closing notice or belongs to the iteration
for one `t` among the values of `ttl` still to come. -/
theorem probeLoop_events (env : Env) (dest : IPAddr) :
    ∀ (n ttl : Nat) (p : Bool), ∀ e ∈ (probeLoop env dest n ttl p).1,
      e = hopLimitNotice ∨ ∃ t, ttl ≤ t ∧ t < ttl + n ∧
        (e = .SetTTL t ∨ e = .Marshal (echoRequest env.Getpid t) ∨ bodyEvent t e) := by
  intro n
  induction n with
  | zero =>
    intro ttl p e he
    left
    simpa [probeLoop_zero] using he
  | succ n ih =>
    intro ttl p e he
    obtain ⟨rest, h, -, hrest⟩ := iteration_shape env dest ttl (p || env.sigBefore ttl)
    have hown : ∀ e ∈ (iteration env dest ttl (p || env.sigBefore ttl)).1,
        ∃ t, ttl ≤ t ∧ t < ttl + (n + 1) ∧
          (e = .SetTTL t ∨ e = .Marshal (echoRequest env.Getpid t) ∨ bodyEvent t e) := by
      intro e he
      rw [h] at he
      refine ⟨ttl, le_refl _, by omega, ?_⟩
      rcases List.mem_cons.1 he with h1 | he
      · exact Or.inl h1
      · rcases List.mem_cons.1 he with h2 | he
        · exact Or.inr (Or.inl h2)
        · exact Or.inr (Or.inr (hrest e he))
    rw [probeLoop_succ] at he
    rcases hi : iteration env dest ttl (p || env.sigBefore ttl) with ⟨evs, flow⟩
    rw [hi] at he hown
    cases flow with
    | stop o => exact Or.inr (hown e he)
    | next q =>
      simp only [List.mem_append] at he
      rcases he with he | he
      · exact Or.inr (hown e he)
      · rcases ih (ttl + 1) q e he with h0 | ⟨t, h1, h2, h3⟩
        · exact Or.inl h0
        · exact Or.inr ⟨t, by omega, by omega, h3⟩

/-- The loop sends one probe per iteration at most. -/
theorem probeLoop_writes (env : Env) (dest : IPAddr) :
    ∀ (n ttl : Nat) (p : Bool), (probeLoop env dest n ttl p).1.countP isWriteTo ≤ n := by
  intro n
  induction n with
  | zero =>
    intro ttl p
    simp [probeLoop_zero, hopLimitNotice, isWriteTo]
  | succ n ih =>
    intro ttl p
    obtain ⟨rest, h, hw, -⟩ := iteration_shape env dest ttl (p || env.sigBefore ttl)
    have hown : (iteration env dest ttl (p || env.sigBefore ttl)).1.countP isWriteTo ≤ 1 := by
      rw [h]
      simpa [List.countP_cons, isWriteTo] using hw
    rw [probeLoop_succ]
    rcases hi : iteration env dest ttl (p || env.sigBefore ttl) with ⟨evs, flow⟩
    rw [hi] at hown
    cases flow with
    | stop o =>
      simp only at hown ⊢
      omega
    | next q =>
      have := ih (ttl + 1) q
      simp only [List.countP_append] at hown ⊢
      omega

/-- The closing notice and `Close` are no events of an iteration. -/
theorem iteration_no_notice (env : Env) (dest : IPAddr) (ttl : Nat) (p : Bool) :
    hopLimitNotice ∉ (iteration env dest ttl p).1 ∧ Event.Close ∉ (iteration env dest ttl p).1 := by
  obtain ⟨rest, h, -, hrest⟩ := iteration_shape env dest ttl p
  rw [h]
  constructor
  · intro hmem
    rcases List.mem_cons.1 hmem with h1 | hmem
    · simp [hopLimitNotice] at h1
    · rcases List.mem_cons.1 hmem with h1 | hmem
      · simp [hopLimitNotice] at h1
      · exact (hrest _ hmem).2.2.1 rfl
  · intro hmem
    rcases List.mem_cons.1 hmem with h1 | hmem
    · simp at h1
    · rcases List.mem_cons.1 hmem with h1 | hmem
      · simp at h1
      · exact (hrest _ hmem).2.2.2.1 rfl

/-- The loop never closes the socket itself. -/
theorem probeLoop_no_close (env : Env) (dest : IPAddr) (n ttl : Nat) (p : Bool) :
    Event.Close ∉ (probeLoop env dest n ttl p).1 := by
  intro hmem
  rcases probeLoop_events env dest n ttl p _ hmem with h | ⟨t, -, -, h | h | h⟩
  · simp [hopLimitNotice] at h
  · simp at h
  · simp at h
  · exact h.2.2.2.1 rfl

theorem poll_flow (env : Env) (ttl : Nat) (p : Bool) :
    (poll env ttl p).2 = .next false ∨
      ((poll env ttl p).2 = .stop .returned ∧ Event.RecvInterrupt ∈ (poll env ttl p).1) := by
  unfold poll
  split <;> simp

/-- An iteration in which `Marshal` succeeds and no Echo-Reply is received
goes on to the next `ttl`, unless its `select` finds a signal. -/
theorem iteration_flow (env : Env) (dest : IPAddr) (ttl : Nat) (p : Bool)
    (hm : ∃ b, env.Marshal (echoRequest env.Getpid ttl) = .ok b)
    (he : ∀ reply peer pkt, env.WriteTo ttl = none → env.ReadFrom ttl = .ok (reply, peer) →
      env.ParseMessage reply = .ok pkt → pkt.msg.Typ ≠ ICMPTypeEchoReply) :
    (∃ q, (iteration env dest ttl p).2 = .next q) ∨
      ((iteration env dest ttl p).2 = .stop .returned ∧
        Event.RecvInterrupt ∈ (iteration env dest ttl p).1) := by
  obtain ⟨b, hm⟩ := hm
  rcases hs : env.WriteTo ttl with _ | err
  · rcases hr : env.ReadFrom ttl with err | ⟨reply, peer⟩
    · rw [iteration_receive_error _ _ _ _ _ _ hm hs hr]
      exact Or.inl ⟨_, rfl⟩
    · rcases hp : env.ParseMessage reply with err | pkt
      · rw [iteration_parse_error _ _ _ _ _ _ _ _ hm hs hr hp]
        exact Or.inl ⟨_, rfl⟩
      · rw [iteration_parsed _ _ _ _ _ _ _ _ hm hs hr hp]
        have hne := he reply peer pkt hs hr hp
        by_cases ht : pkt.msg.Typ = ICMPTypeTimeExceeded
        · obtain ⟨Data, -, hc⟩ :=
            classify_timeExceeded env dest ttl p pkt (env.now ttl - env.start ttl) ht
          rw [hc]
          rcases poll_flow env ttl p with h | ⟨h1, h2⟩
          · exact Or.inl ⟨_, h⟩
          · exact Or.inr ⟨h1, by simp [h2]⟩
        · rw [classify_other env dest ttl p pkt.msg _ ht hne]
          rcases poll_flow env ttl p with h | ⟨h1, h2⟩
          · exact Or.inl ⟨_, h⟩
          · exact Or.inr ⟨h1, by simp [h2]⟩
  · rw [iteration_send_error _ _ _ _ _ _ hm hs]
    exact Or.inl ⟨_, rfl⟩

/-- When `Marshal` never fails, no Echo-Reply is received and no `select`
finds a signal, the loop runs to its end and prints the notice once. -/
theorem probeLoop_exhausts (env : Env) (dest : IPAddr) :
    ∀ (n ttl : Nat) (p : Bool),
      (∀ t, ttl ≤ t → t < ttl + n → ∃ b, env.Marshal (echoRequest env.Getpid t) = .ok b) →
      (∀ t reply peer pkt, ttl ≤ t → t < ttl + n → env.WriteTo t = none →
        env.ReadFrom t = .ok (reply, peer) → env.ParseMessage reply = .ok pkt →
        pkt.msg.Typ ≠ ICMPTypeEchoReply) →
      Event.RecvInterrupt ∉ (probeLoop env dest n ttl p).1 →
      ∃ front, (probeLoop env dest n ttl p).1 = front ++ [hopLimitNotice] ∧
        hopLimitNotice ∉ front ∧ (probeLoop env dest n ttl p).2 = .returned := by
  intro n
  induction n with
  | zero =>
    intro ttl p _ _ _
    exact ⟨[], by simp [probeLoop_zero], by simp, rfl⟩
  | succ n ih =>
    intro ttl p hm he hint
    have hflow := iteration_flow env dest ttl (p || env.sigBefore ttl)
      (hm ttl (le_refl _) (by omega))
      (fun reply peer pkt => he ttl reply peer pkt (le_refl _) (by omega))
    have hno := (iteration_no_notice env dest ttl (p || env.sigBefore ttl)).1
    rw [probeLoop_succ] at hint ⊢
    rcases hi : iteration env dest ttl (p || env.sigBefore ttl) with ⟨evs, flow⟩
    rw [hi] at hint hflow hno
    cases flow with
    | stop o =>
      rcases hflow with ⟨q, hq⟩ | ⟨-, hmem⟩
      · simp at hq
      · exact absurd hmem hint
    | next q =>
      simp only [List.mem_append, not_or] at hint
      obtain ⟨front, h1, h2, h3⟩ := ih (ttl + 1) q
        (fun t h1 h2 => hm t (by omega) (by omega))
        (fun t reply peer pkt h1 h2 => he t reply peer pkt (by omega) (by omega))
        hint.2
      refine ⟨evs ++ front, ?_, ?_, h3⟩
      · simp only [h1, List.append_assoc]
      · simp only [List.mem_append, not_or]
        exact ⟨hno, h2⟩

/-- The loop started by `main` with `n` iterations to run either leaves
`main` during one of its first `j` iterations, or gets through them and goes
on as the loop with `n - j` iterations to run from `ttl + j`. -/
theorem probeLoop_split (env : Env) (dest : IPAddr) :
    ∀ (j n ttl : Nat) (p : Bool), j ≤ n →
      (∃ pre q, probeLoop env dest n ttl p =
        (pre ++ (probeLoop env dest (n - j) (ttl + j) q).1,
          (probeLoop env dest (n - j) (ttl + j) q).2)) ∨
      ∃ t q evs o, ttl ≤ t ∧ t < ttl + j ∧ iteration env dest t q = (evs, .stop o) ∧
        (probeLoop env dest n ttl p).2 = o := by
  intro j
  induction j with
  | zero =>
    intro n ttl p _
    exact Or.inl ⟨[], p, by simp⟩
  | succ j ih =>
    intro n ttl p hj
    obtain ⟨m, rfl⟩ : ∃ m, n = m + 1 := ⟨n - 1, by omega⟩
    rcases hi : iteration env dest ttl (p || env.sigBefore ttl) with ⟨evs, flow⟩
    cases flow with
    | stop o =>
      right
      exact ⟨ttl, _, evs, o, le_refl _, by omega, hi, by rw [probeLoop_stop env dest m ttl p o evs hi]⟩
    | next q =>
      rw [probeLoop_next env dest m ttl p q evs hi]
      rcases ih m (ttl + 1) q (by omega) with ⟨pre, q2, h⟩ | ⟨t, q2, evs2, o, h1, h2, h3, h4⟩
      · left
        refine ⟨evs ++ pre, q2, ?_⟩
        have e1 : m + 1 - (j + 1) = m - j := by omega
        have e2 : ttl + (j + 1) = ttl + 1 + j := by omega
        rw [h, e1, e2, List.append_assoc]
      · right
        exact ⟨t, q2, evs2, o, by omega, by omega, h3, h4⟩

/-- The iteration for `j` prints no hop line for another `k`. -/
theorem iteration_other_hop (env : Env) (dest : IPAddr) (j k : Nat) (q : Bool) (h : j ≠ k) :
    (iteration env dest j q).1.countP (isHopLine k) = 0 := by
  obtain ⟨rest, hr, -, hrest⟩ := iteration_shape env dest j q
  rw [hr, List.countP_eq_zero]
  intro e he
  rcases List.mem_cons.1 he with h1 | he
  · simp [h1, isHopLine]
  · rcases List.mem_cons.1 he with h1 | he
    · simp [h1, isHopLine]
    · simpa using (hrest e he).2.2.2.2 k (fun hk => h hk.symm)

/-- When the reply of the iteration for `ttl` parses as an Echo-Reply and
the reverse lookup fails or returns at least one name, the iteration prints
the final line, with the first name or else the address of the destination,
and `main` returns: the loop ends there, however many iterations `n` were
still to come. -/
theorem echo_reply_named (env : Env) (dest : IPAddr) (n ttl : Nat) (p : Bool)
    (b reply : List Nat) (peer : IPAddr) (pkt : Parsed) (name : String)
    (hm : env.Marshal (echoRequest env.Getpid ttl) = .ok b)
    (hs : env.WriteTo ttl = none)
    (hr : env.ReadFrom ttl = .ok (reply, peer))
    (hp : env.ParseMessage reply = .ok pkt)
    (he : pkt.msg.Typ = ICMPTypeEchoReply)
    (hn : destName env dest = some name) :
    probeLoop env dest (n + 1) ttl p =
      ([.SetTTL ttl, .Marshal (echoRequest env.Getpid ttl), .WriteTo b dest, .ReadFrom 1500,
        .ParseMessage protocolICMP reply, .LookupAddr (env.addrString dest),
        .Printf "%d: %s %v\n" [.int ttl, .str name, .dur (env.now ttl - env.start ttl)]],
       .returned) := by
  have hi := iteration_parsed env dest ttl (p || env.sigBefore ttl) b reply peer pkt hm hs hr hp
  have hne : pkt.msg.Typ ≠ ICMPTypeTimeExceeded := by
    rw [he]
    decide
  have hc : classify env dest ttl (p || env.sigBefore ttl) pkt.msg (env.now ttl - env.start ttl) =
      ([.LookupAddr (env.addrString dest),
        .Printf "%d: %s %v\n" [.int ttl, .str name, .dur (env.now ttl - env.start ttl)]],
       .stop .returned) := by
    unfold destName at hn
    unfold classify
    rw [if_neg hne, if_pos he]
    rcases hl : env.LookupAddr (env.addrString dest) with err | names
    · rw [hl] at hn
      simp only [Option.some.injEq] at hn
      simp [hn]
    · rw [hl] at hn
      cases names with
      | nil => simp at hn
      | cons a rest =>
        simp only [List.head?_cons, Option.some.injEq] at hn
        simp [hn]
  rw [hc] at hi
  exact probeLoop_stop env dest _ ttl p _ _ hi

/-! ## The whole of `main` -/

theorem main_opened (env : Env) (dest : IPAddr) (ha : env.Args.length = 2)
    (hr : env.ResolveIPAddr (env.Args.getD 1 "") = .ok dest) (hl : env.ListenPacket = none) :
    main env =
      match (probeLoop env dest maxHops 1 false).2 with
      | .exited code => ⟨preamble env ++ (probeLoop env dest maxHops 1 false).1, .exited code⟩
      | o => ⟨preamble env ++ (probeLoop env dest maxHops 1 false).1 ++ [.Close], o⟩ := by
  unfold main
  rw [if_neg (by simp only [ha, ne_eq, not_true_eq_false, not_false_eq_true])]
  simp only [hr, hl]
  rfl

theorem main_usage (env : Env) (ha : env.Args.length ≠ 2) :
    main env = ⟨[.Println [.str "Usage: go run main.go <destination>"]], .exited 1⟩ := by
  unfold main
  rw [if_pos ha]

theorem main_resolve_error (env : Env) (err : String) (ha : env.Args.length = 2)
    (hr : env.ResolveIPAddr (env.Args.getD 1 "") = .error err) :
    main env =
      ⟨[.ResolveIPAddr "ip" (env.Args.getD 1 ""),
        .Println [.str "Error resolving destination IP:", .err err]], .exited 1⟩ := by
  unfold main
  rw [if_neg (by simp only [ha, ne_eq, not_true_eq_false, not_false_eq_true])]
  simp only [hr]
  rfl

theorem main_listen_error (env : Env) (dest : IPAddr) (err : String)
    (ha : env.Args.length = 2)
    (hr : env.ResolveIPAddr (env.Args.getD 1 "") = .ok dest)
    (hl : env.ListenPacket = some err) :
    main env =
      ⟨[.ResolveIPAddr "ip" (env.Args.getD 1 ""), .ListenPacket "ip4:icmp" "0.0.0.0",
        .Println [.str "Error creating ICMP socket:", .err err]], .exited 1⟩ := by
  unfold main
  rw [if_neg (by simp only [ha, ne_eq, not_true_eq_false, not_false_eq_true])]
  simp only [hr, hl]
  rfl

theorem main_not_opened (env : Env)
    (h : env.Args.length ≠ 2 ∨ (∃ err, env.ResolveIPAddr (env.Args.getD 1 "") = .error err) ∨
      ∃ err, env.ListenPacket = some err) :
    (main env).outcome = .exited 1 := by
  unfold main
  by_cases ha : env.Args.length ≠ 2
  · rw [if_pos ha]
  · rw [if_neg ha]
    rcases hr : env.ResolveIPAddr (env.Args.getD 1 "") with err | dest
    · simp only [hr]
    · rcases hl : env.ListenPacket with _ | err
      · rcases h with h | ⟨err, h⟩ | ⟨err, h⟩
        · exact absurd h ha
        · rw [hr] at h
          cases h
        · rw [hl] at h
          cases h
      · simp only [hr, hl]

/-- Unless the process leaves through `os.Exit`, the last call of a run is
the one call of `Close`. -/
theorem main_closes_on_return (env : Env) (hx : ∀ code, (main env).outcome ≠ .exited code) :
    ∃ front, (main env).trace = front ++ [.Close] ∧ Event.Close ∉ front := by
  by_cases ha : env.Args.length ≠ 2
  · exact absurd (main_not_opened env (Or.inl ha)) (hx 1)
  · rcases hr : env.ResolveIPAddr (env.Args.getD 1 "") with err | dest
    · exact absurd (main_not_opened env (Or.inr (Or.inl ⟨err, hr⟩))) (hx 1)
    · rcases hl : env.ListenPacket with _ | err
      · have hm := main_opened env dest (not_not.1 ha) hr hl
        have hnc := probeLoop_no_close env dest maxHops 1 false
        rw [hm] at hx ⊢
        cases ho : (probeLoop env dest maxHops 1 false).2 with
        | exited code =>
          rw [ho] at hx
          exact absurd rfl (hx code)
        | returned =>
          refine ⟨_, rfl, ?_⟩
          simpa [preamble] using hnc
        | panicked q =>
          refine ⟨_, rfl, ?_⟩
          simpa [preamble] using hnc
      · exact absurd (main_not_opened env (Or.inr (Or.inr ⟨err, hl⟩))) (hx 1)

/-! ## The text of the hop line, the identifier -/

theorem hopFormat_data :
    "%d: %s (%s) %v\n".data =
      ['%', 'd', ':', ' ', '%', 's', ' ', '(', '%', 's', ')', ' ', '%', 'v', '\n'] := rfl

/-- The text of the line printed at line 98. -/
theorem hopLine_text (env : Env) (ttl : Nat) (Data : List Nat) (d : Int) :
    Event.text env (.Printf "%d: %s (%s) %v\n" [.int ttl, .ip Data, .ip Data, .dur d]) =
      some (toString ttl ++ ": " ++ env.ipString Data ++ " (" ++ env.ipString Data ++ ") " ++
        env.durString d ++ "\n") := by
  simp only [Event.text, hopFormat_data, List.map, Arg.text, sprintf]
  congr 1
  apply String.ext
  simp [String.data_append]

theorem echoRequest_eq (pid ttl : Nat) :
    echoRequest pid ttl = ⟨ICMPTypeEcho, 0, .Echo (pid % 65536) ttl []⟩ := by
  have h : pid &&& 0xffff = pid % 65536 := Nat.and_pow_two_sub_one_eq_mod pid 16
  simp only [echoRequest, h]

/-! ## Leaving through `os.Exit` -/

/-- Were `Marshal` to return an error for the first probe, the process would
end through the `os.Exit(1)` of line 69 and `Close` would not be called. -/
theorem marshal_error_exits :
    envMarshalFails.ListenPacket = none ∧
      main envMarshalFails =
        ⟨[.ResolveIPAddr "ip" "192.0.2.7", .ListenPacket "ip4:icmp" "0.0.0.0", .SetTTL 64,
          .SetDeadline 2000000000, .Notify,
          .SetTTL 1, .Marshal ⟨8, 0, .Echo 4464 1 []⟩,
          .Println [.str "Error marshaling ICMP message:", .err "invalid protocol"]],
         .exited 1⟩ ∧
      (main envMarshalFails).trace.count .Close = 0 := by
  decide

/-! ## The claims -/

/-- C6: in the iteration for any `ttl` the first two calls are `SetTTL ttl`
and the marshalling of an Echo Request of type `ICMPTypeEcho`, code 0, empty
payload, sequence number `ttl` and identifier `Getpid mod 2^16`, and no other
message is built in that iteration; the identifier is at most 65535 and does
not depend on `ttl`; and every message `main` ever marshals is that request
for some `ttl` from 1 to `maxHops`. -/
theorem echo_request_fields (env : Env) (dest : IPAddr) (ttl : Nat) (pending : Bool) :
    (∃ rest, (iteration env dest ttl pending).1 =
        .SetTTL ttl :: .Marshal ⟨ICMPTypeEcho, 0, .Echo (env.Getpid % 65536) ttl []⟩ :: rest ∧
        ∀ e ∈ rest, ∀ m, e ≠ .Marshal m) ∧
      env.Getpid % 65536 ≤ 65535 ∧
      ∀ m, Event.Marshal m ∈ (main env).trace →
        ∃ t, 1 ≤ t ∧ t ≤ maxHops ∧ m = ⟨ICMPTypeEcho, 0, .Echo (env.Getpid % 65536) t []⟩ := by
  refine ⟨?_, by omega, ?_⟩
  · obtain ⟨rest, h, -, hrest⟩ := iteration_shape env dest ttl pending
    exact ⟨rest, by rw [h, echoRequest_eq], fun e he => (hrest e he).2.1⟩
  · intro m hmem
    have hloop : ∀ d, Event.Marshal m ∈ (probeLoop env d maxHops 1 false).1 →
        ∃ t, 1 ≤ t ∧ t ≤ maxHops ∧ m = ⟨ICMPTypeEcho, 0, .Echo (env.Getpid % 65536) t []⟩ := by
      intro d hd
      rcases probeLoop_events env d maxHops 1 false _ hd with h | ⟨t, h1, h2, h | h | h⟩
      · simp [hopLimitNotice] at h
      · simp at h
      · refine ⟨t, h1, by omega, ?_⟩
        rw [← echoRequest_eq]
        simpa using h
      · exact absurd rfl (h.2.1 m)
    by_cases ha : env.Args.length ≠ 2
    · simp [main_usage env ha] at hmem
    · rcases hr : env.ResolveIPAddr (env.Args.getD 1 "") with err | d
      · simp [main_resolve_error env err (not_not.1 ha) hr] at hmem
      · rcases hl : env.ListenPacket with _ | err
        · rw [main_opened env d (not_not.1 ha) hr hl] at hmem
          apply hloop d
          cases ho : (probeLoop env d maxHops 1 false).2 <;>
            simpa [ho, preamble] using hmem
        · simp [main_listen_error env d err (not_not.1 ha) hr hl] at hmem

/-- C4: when the receive of the iteration for `ttl` (1 to `maxHops`) fails,
the iteration makes one `WriteTo`, prints the receive-error diagnostic and
goes on (it does not leave `main`); what follows is the loop from `ttl + 1`,
which starts with `SetTTL (ttl + 1)` when `ttl < maxHops`, is the hop-limit
notice alone when `ttl = maxHops`, and never sets the TTL to `ttl` again. -/
theorem receive_error_proceeds (env : Env) (dest : IPAddr) (ttl : Nat) (p : Bool)
    (b : List Nat) (err : String) (h1 : 1 ≤ ttl) (h2 : ttl ≤ maxHops)
    (hm : env.Marshal (echoRequest env.Getpid ttl) = .ok b)
    (hs : env.WriteTo ttl = none)
    (hr : env.ReadFrom ttl = .error err) :
    ∃ q rest o,
      iteration env dest ttl (p || env.sigBefore ttl) =
        ([.SetTTL ttl, .Marshal (echoRequest env.Getpid ttl), .WriteTo b dest, .ReadFrom 1500,
          .Println [.str "Error receiving ICMP reply:", .err err]], .next q) ∧
      probeLoop env dest (maxHops - ttl) (ttl + 1) q = (rest, o) ∧
      probeLoop env dest (maxHops - ttl + 1) ttl p =
        ([.SetTTL ttl, .Marshal (echoRequest env.Getpid ttl), .WriteTo b dest, .ReadFrom 1500,
          .Println [.str "Error receiving ICMP reply:", .err err]] ++ rest, o) ∧
      (ttl = maxHops → rest = [hopLimitNotice] ∧ o = .returned) ∧
      (ttl < maxHops →
        ∃ tail, rest = .SetTTL (ttl + 1) :: .Marshal (echoRequest env.Getpid (ttl + 1)) :: tail) ∧
      (∀ v, Event.SetTTL v ∈ rest → ttl < v) ∧
      ∀ m, Event.Marshal m ∈ rest → m ≠ echoRequest env.Getpid ttl := by
  have hi := iteration_receive_error env dest ttl (p || env.sigBefore ttl) b err hm hs hr
  refine ⟨_, _, _, hi, rfl, ?_, ?_, ?_, ?_, ?_⟩
  · rw [probeLoop_next env dest _ ttl p _ _ hi]
  · intro h
    subst h
    simp [probeLoop_zero]
  · intro h
    obtain ⟨n, hn⟩ : ∃ n, maxHops - ttl = n + 1 := ⟨maxHops - ttl - 1, by omega⟩
    rw [hn]
    exact probeLoop_head env dest n (ttl + 1) _
  · intro v hv
    rcases probeLoop_events env dest _ _ _ _ hv with h | ⟨t, h1, -, h | h | h⟩
    · simp [hopLimitNotice] at h
    · have : v = t := by simpa using h
      omega
    · simp at h
    · exact absurd rfl (h.1 v)
  · intro m hv
    rcases probeLoop_events env dest _ _ _ _ hv with h | ⟨t, h1, -, h | h | h⟩
    · simp [hopLimitNotice] at h
    · simp at h
    · have : m = echoRequest env.Getpid t := by simpa using h
      rw [this]
      intro heq
      have : t = ttl := by simpa [echoRequest] using heq
      omega
    · exact absurd rfl (h.2.1 m)

theorem receive_error_proceeds_witness :
    ∃ q rest o,
      iteration envPath destination 4 (false || envPath.sigBefore 4) =
        ([.SetTTL 4, .Marshal (echoRequest envPath.Getpid 4), .WriteTo (probe 4) destination,
          .ReadFrom 1500, .Println [.str "Error receiving ICMP reply:", .err "i/o timeout"]],
          .next q) ∧
      probeLoop envPath destination (maxHops - 4) (4 + 1) q = (rest, o) ∧
      probeLoop envPath destination (maxHops - 4 + 1) 4 false =
        ([.SetTTL 4, .Marshal (echoRequest envPath.Getpid 4), .WriteTo (probe 4) destination,
          .ReadFrom 1500, .Println [.str "Error receiving ICMP reply:", .err "i/o timeout"]]
            ++ rest, o) ∧
      (4 = maxHops → rest = [hopLimitNotice] ∧ o = .returned) ∧
      (4 < maxHops →
        ∃ tail, rest = .SetTTL (4 + 1) :: .Marshal (echoRequest envPath.Getpid (4 + 1)) :: tail) ∧
      (∀ v, Event.SetTTL v ∈ rest → 4 < v) ∧
      ∀ m, Event.Marshal m ∈ rest → m ≠ echoRequest envPath.Getpid 4 :=
  receive_error_proceeds envPath destination 4 false (probe 4) "i/o timeout"
    (by decide) (by decide) rfl rfl rfl

/-- C2: when the reply of the iteration for `k` (below `maxHops`) parses as a
Time-Exceeded message, the run from that iteration on prints exactly one
intermediate-hop line for `k`, and no iteration for another `ttl` prints one
for `k`; and when the `select` of the iteration finds no signal, the calls
that follow that line are `SetTTL (k + 1)` and the marshalling of the probe
for `k + 1`. -/
theorem time_exceeded_continues (env : Env) (dest : IPAddr) (k : Nat) (p : Bool)
    (b reply : List Nat) (peer : IPAddr) (pkt : Parsed) (h2 : k < maxHops)
    (hm : env.Marshal (echoRequest env.Getpid k) = .ok b)
    (hs : env.WriteTo k = none)
    (hr : env.ReadFrom k = .ok (reply, peer))
    (hp : env.ParseMessage reply = .ok pkt)
    (ht : pkt.msg.Typ = ICMPTypeTimeExceeded) :
    (probeLoop env dest (maxHops - k + 1) k p).1.countP (isHopLine k) = 1 ∧
      (∀ j q, j ≠ k → (iteration env dest j q).1.countP (isHopLine k) = 0) ∧
      ((p || env.sigBefore k || env.sigDuring k) = false →
        ∃ Data tail, (probeLoop env dest (maxHops - k + 1) k p).1 =
          [.SetTTL k, .Marshal (echoRequest env.Getpid k), .WriteTo b dest, .ReadFrom 1500,
            .ParseMessage protocolICMP reply,
            .Printf "%d: %s (%s) %v\n"
              [.int k, .ip Data, .ip Data, .dur (env.now k - env.start k)]] ++
          .SetTTL (k + 1) :: .Marshal (echoRequest env.Getpid (k + 1)) :: tail) := by
  obtain ⟨Data, -, hc⟩ := classify_timeExceeded env dest k (p || env.sigBefore k) pkt
    (env.now k - env.start k) ht
  have hi := iteration_parsed env dest k (p || env.sigBefore k) b reply peer pkt hm hs hr hp
  rw [hc] at hi
  have hlater : ∀ q, (probeLoop env dest (maxHops - k) (k + 1) q).1.countP (isHopLine k) = 0 := by
    intro q
    rw [List.countP_eq_zero]
    intro e he
    rcases probeLoop_events env dest _ _ _ _ he with h | ⟨t, h1, -, h | h | h⟩
    · simp [h, hopLimitNotice, isHopLine]
    · simp [h, isHopLine]
    · simp [h, isHopLine]
    · simpa using h.2.2.2.2 k (by omega)
  by_cases hsig : (p || env.sigBefore k || env.sigDuring k) = true
  · have hpoll : poll env k (p || env.sigBefore k) =
        ([.RecvInterrupt, .Println [.str "Traceroute interrupted."]], .stop .returned) := by
      simp [poll, hsig]
    rw [hpoll] at hi
    rw [probeLoop_stop env dest _ k p _ _ hi]
    refine ⟨?_, fun j q hj => iteration_other_hop env dest j k q hj, fun h => ?_⟩
    · simp [List.countP_cons, isHopLine]
    · rw [h] at hsig
      cases hsig
  · have hsig : (p || env.sigBefore k || env.sigDuring k) = false := by
      simpa using hsig
    have hpoll : poll env k (p || env.sigBefore k) = ([], .next false) := by
      simp [poll, hsig]
    rw [hpoll] at hi
    rw [probeLoop_next env dest _ k p _ _ hi]
    refine ⟨?_, fun j q hj => iteration_other_hop env dest j k q hj, fun _ => ?_⟩
    · simp only [List.countP_append, hlater]
      simp [List.countP_cons, isHopLine]
    · obtain ⟨n, hn⟩ : ∃ n, maxHops - k = n + 1 := ⟨maxHops - k - 1, by omega⟩
      obtain ⟨tail, htail⟩ := probeLoop_head env dest n (k + 1) false
      refine ⟨Data, tail, ?_⟩
      simp only [hn, htail]
      rfl

theorem time_exceeded_continues_witness :
    (probeLoop envPath destination (maxHops - 1 + 1) 1 false).1.countP (isHopLine 1) = 1 ∧
      (∀ j q, j ≠ 1 → (iteration envPath destination j q).1.countP (isHopLine 1) = 0) ∧
      ((false || envPath.sigBefore 1 || envPath.sigDuring 1) = false →
        ∃ Data tail, (probeLoop envPath destination (maxHops - 1 + 1) 1 false).1 =
          [.SetTTL 1, .Marshal (echoRequest envPath.Getpid 1), .WriteTo (probe 1) destination,
            .ReadFrom 1500, .ParseMessage protocolICMP (expired 1),
            .Printf "%d: %s (%s) %v\n"
              [.int 1, .ip Data, .ip Data, .dur (envPath.now 1 - envPath.start 1)]] ++
          .SetTTL (1 + 1) :: .Marshal (echoRequest envPath.Getpid (1 + 1)) :: tail) :=
  time_exceeded_continues envPath destination 1 false (probe 1) (expired 1) ⟨[10, 0, 0, 1], ""⟩
    ⟨⟨11, 0, .TimeExceeded ((expired 1).drop 8)⟩, fun _ => rfl⟩
    (by decide) rfl rfl rfl rfl rfl

/-- C5: when the socket was opened, `Marshal` fails for no `ttl` from 1 to
`maxHops`, no iteration receives an Echo-Reply and no `select` finds a signal,
`main` sends at most `maxHops` probes, sets no TTL above `maxHops`, prints
the hop-limit notice exactly once, as its last line, closes the socket and
ends with exit status 0. -/
theorem hop_limit_exhausted (env : Env) (dest : IPAddr)
    (ha : env.Args.length = 2)
    (hres : env.ResolveIPAddr (env.Args.getD 1 "") = .ok dest)
    (hl : env.ListenPacket = none)
    (hm : ∀ ttl, 1 ≤ ttl → ttl ≤ maxHops →
      ∃ b, env.Marshal (echoRequest env.Getpid ttl) = .ok b)
    (he : ∀ ttl reply peer pkt, 1 ≤ ttl → ttl ≤ maxHops → env.WriteTo ttl = none →
      env.ReadFrom ttl = .ok (reply, peer) → env.ParseMessage reply = .ok pkt →
      pkt.msg.Typ ≠ ICMPTypeEchoReply)
    (hint : Event.RecvInterrupt ∉ (main env).trace) :
    ∃ front, (main env).trace = front ++ [hopLimitNotice, .Close] ∧
      hopLimitNotice ∉ front ∧
      front.countP isWriteTo ≤ maxHops ∧
      (∀ v, Event.SetTTL v ∈ front → 1 ≤ v ∧ v ≤ maxHops) ∧
      (main env).outcome = .returned ∧ exitCode (main env).outcome = 0 := by
  have hmain := main_opened env dest ha hres hl
  have hint2 : Event.RecvInterrupt ∉ (probeLoop env dest maxHops 1 false).1 := by
    intro hmem
    apply hint
    rw [hmain]
    cases (probeLoop env dest maxHops 1 false).2 <;> simp [hmem]
  obtain ⟨front, hf1, hf2, hf3⟩ := probeLoop_exhausts env dest maxHops 1 false
    (fun t h1 h2 => hm t h1 (by omega))
    (fun t reply peer pkt h1 h2 => he t reply peer pkt h1 (by omega)) hint2
  rw [hf3] at hmain
  have hw := probeLoop_writes env dest maxHops 1 false
  rw [hf1] at hw
  refine ⟨preamble env ++ front, ?_, ?_, ?_, ?_, ?_, ?_⟩
  · rw [hmain, hf1]
    simp
  · simp only [List.mem_append, not_or]
    exact ⟨by simp [preamble, hopLimitNotice], hf2⟩
  · simp only [List.countP_append] at hw ⊢
    have : (preamble env).countP isWriteTo = 0 := by simp [preamble, isWriteTo, List.countP_cons]
    omega
  · intro v hv
    rcases List.mem_append.1 hv with hv | hv
    · have : v = maxHops := by simpa [preamble] using hv
      subst this
      exact ⟨by decide, le_refl _⟩
    · have hv2 : Event.SetTTL v ∈ (probeLoop env dest maxHops 1 false).1 := by
        rw [hf1]
        exact List.mem_append_left _ hv
      rcases probeLoop_events env dest _ _ _ _ hv2 with h | ⟨t, h1, h2, h | h | h⟩
      · simp [hopLimitNotice] at h
      · have : v = t := by simpa using h
        omega
      · simp at h
      · exact absurd rfl (h.1 v)
  · rw [hmain]
  · rw [hmain]
    rfl

theorem hop_limit_exhausted_witness :
    ∃ front, (main envSilent).trace = front ++ [hopLimitNotice, .Close] ∧
      hopLimitNotice ∉ front ∧
      front.countP isWriteTo ≤ maxHops ∧
      (∀ v, Event.SetTTL v ∈ front → 1 ≤ v ∧ v ≤ maxHops) ∧
      (main envSilent).outcome = .returned ∧ exitCode (main envSilent).outcome = 0 :=
  hop_limit_exhausted envSilent destination (by decide) rfl rfl
    (fun _ _ _ => ⟨_, rfl⟩)
    (fun _ _ _ _ _ _ _ h => by cases h)
    (by decide)

/-- C3 (as stated, refuted): a signal is delivered after the iteration for 1
has ended and before the iteration for 2 begins, and the probe for 2 is sent
all the same; the signal is found by the `select` that ends the iteration
for 2. -/
theorem signal_between_iterations_probe_sent :
    envSignalBetween.sigBefore 1 = false ∧ envSignalBetween.sigDuring 1 = false ∧
      envSignalBetween.sigBefore 2 = true ∧
      main envSignalBetween =
        ⟨[.ResolveIPAddr "ip" "192.0.2.7", .ListenPacket "ip4:icmp" "0.0.0.0", .SetTTL 64,
          .SetDeadline 2000000000, .Notify,
          .SetTTL 1, .Marshal ⟨8, 0, .Echo 4464 1 []⟩, .WriteTo (probe 1) destination,
          .ReadFrom 1500, .ParseMessage 1 (expired 1),
          .Printf "%d: %s (%s) %v\n"
            [.int 1, .ip ((expired 1).drop 8), .ip ((expired 1).drop 8), .dur 750],
          .SetTTL 2, .Marshal ⟨8, 0, .Echo 4464 2 []⟩, .WriteTo (probe 2) destination,
          .ReadFrom 1500, .ParseMessage 1 (expired 2),
          .Printf "%d: %s (%s) %v\n"
            [.int 2, .ip ((expired 2).drop 8), .ip ((expired 2).drop 8), .dur 750],
          .RecvInterrupt, .Println [.str "Traceroute interrupted."], .Close],
         .returned⟩ ∧
      Event.WriteTo (probe 2) destination ∈ (main envSignalBetween).trace := by
  decide

/-- C3 (amended): when a signal has been delivered by the time the iteration
for `k` reaches its `select`, which it does when send, receive and parse
succeed and the reply is no Echo-Reply, the iteration prints its line and the
interruption notice and the loop ends there, however many iterations `n` were
still to come: nothing is set up or sent for `k + 1`. -/
theorem signal_found_by_select (env : Env) (dest : IPAddr) (n k : Nat) (p : Bool)
    (b reply : List Nat) (peer : IPAddr) (pkt : Parsed)
    (hm : env.Marshal (echoRequest env.Getpid k) = .ok b)
    (hs : env.WriteTo k = none)
    (hr : env.ReadFrom k = .ok (reply, peer))
    (hp : env.ParseMessage reply = .ok pkt)
    (he : pkt.msg.Typ ≠ ICMPTypeEchoReply)
    (hsig : (p || env.sigBefore k || env.sigDuring k) = true) :
    ∃ format args, probeLoop env dest (n + 1) k p =
      ([.SetTTL k, .Marshal (echoRequest env.Getpid k), .WriteTo b dest, .ReadFrom 1500,
        .ParseMessage protocolICMP reply, .Printf format args,
        .RecvInterrupt, interruptNotice], .returned) := by
  have hi := iteration_parsed env dest k (p || env.sigBefore k) b reply peer pkt hm hs hr hp
  have hpoll : poll env k (p || env.sigBefore k) =
      ([.RecvInterrupt, .Println [.str "Traceroute interrupted."]], .stop .returned) := by
    simp [poll, hsig]
  by_cases ht : pkt.msg.Typ = ICMPTypeTimeExceeded
  · obtain ⟨Data, -, hc⟩ := classify_timeExceeded env dest k (p || env.sigBefore k) pkt
      (env.now k - env.start k) ht
    rw [hc, hpoll] at hi
    exact ⟨_, _, probeLoop_stop env dest _ k p _ _ hi⟩
  · rw [classify_other env dest k (p || env.sigBefore k) pkt.msg _ ht he, hpoll] at hi
    exact ⟨_, _, probeLoop_stop env dest _ k p _ _ hi⟩

theorem signal_found_by_select_witness :
    ∃ format args, probeLoop envSignalBetween destination (62 + 1) 2 false =
      ([.SetTTL 2, .Marshal (echoRequest envSignalBetween.Getpid 2),
        .WriteTo (probe 2) destination, .ReadFrom 1500,
        .ParseMessage protocolICMP (expired 2), .Printf format args,
        .RecvInterrupt, interruptNotice], .returned) :=
  signal_found_by_select envSignalBetween destination 62 2 false (probe 2) (expired 2)
    ⟨[10, 0, 1, 1], ""⟩ ⟨⟨11, 0, .TimeExceeded ((expired 2).drop 8)⟩, fun _ => rfl⟩
    rfl rfl rfl rfl (by decide) rfl

/-- C9 (as stated, refuted): the first probe is answered with Time-Exceeded
by `10.0.0.1`, and the line printed for it is not `1: 10.0.0.1 750ns`: it
shows, twice, the bytes quoted in the Time-Exceeded message (the header of
the probe that expired), and the address of the sender nowhere. -/
theorem hop_line_shows_quoted_bytes :
    envPath.ReadFrom 1 = .ok (expired 1, ⟨[10, 0, 0, 1], ""⟩) ∧
      "1: " ++ envPath.ipString [10, 0, 0, 1] ++ " " ++ envPath.durString 750 ++ "\n"
        = "1: 10.0.0.1 750ns\n" ∧
      stdout envPath (main envPath).trace =
        ["1: ?4500001c0000000001013630c0a80102c00002070800e68e11700001 " ++
           "(?4500001c0000000001013630c0a80102c00002070800e68e11700001) 750ns\n",
         "2: ?4500001c0000000001013630c0a80102c00002070800e68d11700002 " ++
           "(?4500001c0000000001013630c0a80102c00002070800e68d11700002) 750ns\n",
         "3: host.example. 750ns\n"] :=
  ⟨rfl, by decide, by decide⟩

/-- C9 (amended): when the reply of the iteration for `ttl` parses as a
Time-Exceeded message, the iteration writes to standard output the line
`{ttl}: {address} ({address}) {elapsed}`, the same address text twice, and
after it nothing or the interruption notice. -/
theorem hop_line_form (env : Env) (dest : IPAddr) (ttl : Nat) (p : Bool)
    (b reply : List Nat) (peer : IPAddr) (pkt : Parsed)
    (hm : env.Marshal (echoRequest env.Getpid ttl) = .ok b)
    (hs : env.WriteTo ttl = none)
    (hr : env.ReadFrom ttl = .ok (reply, peer))
    (hp : env.ParseMessage reply = .ok pkt)
    (ht : pkt.msg.Typ = ICMPTypeTimeExceeded) :
    ∃ address rest,
      stdout env (iteration env dest ttl p).1 =
        (toString ttl ++ ": " ++ address ++ " (" ++ address ++ ") " ++
          env.durString (env.now ttl - env.start ttl) ++ "\n") :: rest ∧
      (rest = [] ∨ rest = ["Traceroute interrupted.\n"]) := by
  obtain ⟨Data, -, hc⟩ := classify_timeExceeded env dest ttl p pkt
    (env.now ttl - env.start ttl) ht
  have hi := iteration_parsed env dest ttl p b reply peer pkt hm hs hr hp
  rw [hc] at hi
  refine ⟨env.ipString Data, stdout env (poll env ttl p).1, ?_, ?_⟩
  · rw [hi]
    simp only [stdout, List.cons_append, List.nil_append, List.filterMap_cons, hopLine_text]
    rfl
  · unfold poll
    split
    · right
      simp only [stdout, List.filterMap_cons, Event.text, List.filterMap_nil, List.map,
        Arg.text]
      decide
    · left
      rfl

theorem hop_line_form_witness :
    ∃ address rest,
      stdout envPath (iteration envPath destination 2 false).1 =
        (toString 2 ++ ": " ++ address ++ " (" ++ address ++ ") " ++
          envPath.durString (envPath.now 2 - envPath.start 2) ++ "\n") :: rest ∧
      (rest = [] ∨ rest = ["Traceroute interrupted.\n"]) :=
  hop_line_form envPath destination 2 false (probe 2) (expired 2) ⟨[10, 0, 1, 1], ""⟩
    ⟨⟨11, 0, .TimeExceeded ((expired 2).drop 8)⟩, fun _ => rfl⟩ rfl rfl rfl rfl rfl

/-- C1 (the code diverges): the destination answers the first probe with an
Echo-Reply and the reverse lookup succeeds with no name; `main` looks the
address up, panics on `destName[0]` and prints no line at all. -/
theorem echo_reply_without_final_line :
    (envEmptyLookup.ParseMessage (echoBytes 0 4464 1)).toOption.map (fun q => q.msg.Typ) =
        some ICMPTypeEchoReply ∧
      main envEmptyLookup =
        ⟨[.ResolveIPAddr "ip" "192.0.2.7", .ListenPacket "ip4:icmp" "0.0.0.0", .SetTTL 64,
          .SetDeadline 2000000000, .Notify,
          .SetTTL 1, .Marshal ⟨8, 0, .Echo 4464 1 []⟩, .WriteTo (probe 1) destination,
          .ReadFrom 1500, .ParseMessage 1 (echoBytes 0 4464 1), .LookupAddr "192.0.2.7",
          .Close],
         .panicked (.indexOutOfRange 0 0)⟩ ∧
      (main envEmptyLookup).trace.countP (isFinalLine 1) = 0 ∧
      stdout envEmptyLookup (main envEmptyLookup).trace = [] := by
  decide

/-- C8 (the code diverges): when the reply of the iteration for `ttl` parses
as an Echo-Reply and the reverse lookup succeeds with an empty list of names,
the iteration ends in an index-out-of-range panic on `destName[0]`, after the
lookup and without a final line. -/
theorem empty_lookup_panics (env : Env) (dest : IPAddr) (ttl : Nat) (p : Bool)
    (b reply : List Nat) (peer : IPAddr) (pkt : Parsed)
    (hm : env.Marshal (echoRequest env.Getpid ttl) = .ok b)
    (hs : env.WriteTo ttl = none)
    (hr : env.ReadFrom ttl = .ok (reply, peer))
    (hp : env.ParseMessage reply = .ok pkt)
    (he : pkt.msg.Typ = ICMPTypeEchoReply)
    (hl : env.LookupAddr (env.addrString dest) = .ok []) :
    iteration env dest ttl p =
      ([.SetTTL ttl, .Marshal (echoRequest env.Getpid ttl), .WriteTo b dest, .ReadFrom 1500,
        .ParseMessage protocolICMP reply, .LookupAddr (env.addrString dest)],
       .stop (.panicked (.indexOutOfRange 0 0))) := by
  have hne : pkt.msg.Typ ≠ ICMPTypeTimeExceeded := by
    rw [he]
    decide
  rw [iteration_parsed env dest ttl p b reply peer pkt hm hs hr hp]
  unfold classify
  rw [if_neg hne, if_pos he]
  simp [hl]

theorem empty_lookup_panics_witness :
    iteration envEmptyLookup destination 1 false =
      ([.SetTTL 1, .Marshal (echoRequest envEmptyLookup.Getpid 1), .WriteTo (probe 1) destination,
        .ReadFrom 1500, .ParseMessage protocolICMP (echoBytes 0 4464 1),
        .LookupAddr (envEmptyLookup.addrString destination)],
       .stop (.panicked (.indexOutOfRange 0 0))) :=
  empty_lookup_panics envEmptyLookup destination 1 false (probe 1) (echoBytes 0 4464 1)
    destination ⟨⟨0, 0, .Echo 4464 1 []⟩, fun h => by cases h⟩ rfl rfl rfl rfl rfl rfl

/-- C10 (the code diverges): a signal is waiting when the first iteration
starts and the first send fails; the iteration prints the diagnostic and goes
on without looking at the channel, the probe for 2 is sent, and the signal is
found only by the `select` that ends the iteration for 2. -/
theorem send_failure_skips_select :
    envSendFails.sigBefore 1 = true ∧
      main envSendFails =
        ⟨[.ResolveIPAddr "ip" "192.0.2.7", .ListenPacket "ip4:icmp" "0.0.0.0", .SetTTL 64,
          .SetDeadline 2000000000, .Notify,
          .SetTTL 1, .Marshal ⟨8, 0, .Echo 4464 1 []⟩, .WriteTo (probe 1) destination,
          .Println [.str "Error sending ICMP message:", .err "sendto: network is unreachable"],
          .SetTTL 2, .Marshal ⟨8, 0, .Echo 4464 2 []⟩, .WriteTo (probe 2) destination,
          .ReadFrom 1500, .ParseMessage 1 (expired 2),
          .Printf "%d: %s (%s) %v\n"
            [.int 2, .ip ((expired 2).drop 8), .ip ((expired 2).drop 8), .dur 750],
          .RecvInterrupt, .Println [.str "Traceroute interrupted."], .Close],
         .returned⟩ ∧
      Event.WriteTo (probe 2) destination ∈ (main envSendFails).trace := by
  decide
end Traceroute
